import Mathlib

/-!
Verification development for the snake game repository: a client-side
simulation engine (src/src/client/game.tsx) and a server-side scoreboard
service (the Hono API file with the /snake/init and /snake/score handlers,
plus the shared wire types).

Numbers of the host language are modelled as rationals (all arithmetic the
program performs on them — additions of small integers, comparison, and
multiplication by 0.9 — is exact in that range), with the non-finite values
NaN and ±Infinity modelled explicitly where the code tests for them.  The
string round trips the server performs on stored values (String/parseInt on
the high score, JSON stringify/parse on the comment log) are modelled as
identities on the stored value, with a malformed stored comment payload
modelled as an explicit constructor.  The pseudo-random source Math.random
is modelled as a stream of rationals in [0, 1) supplied to each operation
that draws from it.
-/

/-! ## Simulation engine: data model (game.tsx) -/

/-- A board cell, integer coordinates.  Freshly computed heads may lie
outside the board, so coordinates are integers, not bounded naturals. -/
structure Cell where
  x : Int
  y : Int
deriving DecidableEq, Repr

/-- A heading, as in the source a pair of integer components. -/
structure Direction where
  x : Int
  y : Int
deriving DecidableEq, Repr

def BOARD_SIZE : Nat := 20

def BASE_TICK_MS : ℚ := 800

def MIN_TICK_MS : ℚ := 150

/-- Stream of draws from Math.random: each tick / reset consumes pairs of
rationals, each assumed to lie in [0, 1). -/
def RandSrc : Type := Nat → ℚ × ℚ

/-- The assumption Math.random guarantees: every draw lies in [0, 1). -/
def RandSrc.InRange (us : RandSrc) : Prop :=
  ∀ k, 0 ≤ (us k).1 ∧ (us k).1 < 1 ∧ 0 ≤ (us k).2 ∧ (us k).2 < 1

/-- randomInt max = Math.floor(Math.random() * max), with the random draw
made explicit. -/
def randomInt (u : ℚ) (max : Nat) : Int :=
  Int.floor (u * (max : ℚ))

def cellsEqual (a b : Cell) : Bool :=
  a.x == b.x && a.y == b.y

/-- The candidate cell the k-th pair of random draws produces inside
generateFood. -/
def candidateCell (us : RandSrc) (k : Nat) : Cell :=
  { x := randomInt (us k).1 BOARD_SIZE, y := randomInt (us k).2 BOARD_SIZE }

/-- The for-loop of generateFood: i is the current loop index, fuel the
remaining attempts; on exhaustion the source falls back to {x: 0, y: 0}. -/
def generateFoodFrom (snake : List Cell) (us : RandSrc) : Nat → Nat → Cell
  | _, 0 => { x := 0, y := 0 }
  | i, fuel + 1 =>
    let candidate := candidateCell us i
    if snake.any (fun s => cellsEqual s candidate) then
      generateFoodFrom snake us (i + 1) fuel
    else
      candidate

/-- generateFood: up to 100 rejection-sampling attempts against the snake,
then the fixed default cell. -/
def generateFood (snake : List Cell) (us : RandSrc) : Cell :=
  generateFoodFrom snake us 0 100

/-- The client game state: the useState slots of useSnakeGame that the
simulation reads or writes (the display color, loading and error banners and
the comment feed are presentation state with no influence on the
simulation and are not modelled). -/
structure GameState where
  snake : List Cell
  direction : Direction
  nextDirection : Direction
  food : Cell
  score : Nat
  gameOver : Bool
  isRunning : Bool
  tickMs : ℚ
deriving DecidableEq

/-- The initial useState values: centered length-1 snake, heading right,
food drawn against the empty snake, not yet running. -/
def initialState (us : RandSrc) : GameState :=
  { snake := [{ x := (BOARD_SIZE : Int) / 2, y := (BOARD_SIZE : Int) / 2 }]
    direction := { x := 1, y := 0 }
    nextDirection := { x := 1, y := 0 }
    food := generateFood [] us
    score := 0
    gameOver := false
    isRunning := false
    tickMs := BASE_TICK_MS }

/-- resetGame: re-center the snake, reset both direction slots, redraw the
food against the single start cell, clear score and flags, start running,
restore the base tick interval. -/
def resetGame (us : RandSrc) : GameState :=
  let center : Int := (BOARD_SIZE : Int) / 2
  let startCell : Cell := { x := center, y := center }
  { snake := [startCell]
    direction := { x := 1, y := 0 }
    nextDirection := { x := 1, y := 0 }
    food := generateFood [startCell] us
    score := 0
    gameOver := false
    isRunning := true
    tickMs := BASE_TICK_MS }

/-- A directional key (arrows / WASD) as handled by onKeyDown: an input
equal to the exact negation of the current committed direction is dropped,
any other overwrites the buffered next-direction slot. -/
def handleDirectionKey (s : GameState) (next : Direction) : GameState :=
  if next.x = -s.direction.x ∧ next.y = -s.direction.y then
    s
  else
    { s with nextDirection := next }

/-- The Shift key (and the equivalent buttons): reset when the game is
over, toggle running otherwise. -/
def handleControlKey (s : GameState) (us : RandSrc) : GameState :=
  if s.gameOver then
    resetGame us
  else
    { s with isRunning := !s.isRunning }

/-- One firing of the interval callback.  The interval only exists while
isRunning and not gameOver (the effect returns early otherwise), which the
leading guard models.  The callback first commits the buffered direction,
then updates the snake: boundary exit or self collision end the game with
the snake unchanged, reaching the food grows the snake, bumps the score,
shrinks the tick interval by 10 percent floored at MIN_TICK_MS and redraws
the food, and otherwise the head advances and the tail is dropped. -/
def tick (s : GameState) (us : RandSrc) : GameState :=
  if !s.isRunning || s.gameOver then
    s
  else
    let dir := s.nextDirection
    let s1 := { s with direction := dir }
    match s1.snake with
    | [] => s1
    | head :: _ =>
      let newHead : Cell := { x := head.x + dir.x, y := head.y + dir.y }
      if newHead.x < 0 ∨ newHead.y < 0 ∨
          newHead.x ≥ (BOARD_SIZE : Int) ∨ newHead.y ≥ (BOARD_SIZE : Int) then
        { s1 with gameOver := true, isRunning := false }
      else if s1.snake.any (fun segment => cellsEqual segment newHead) then
        { s1 with gameOver := true, isRunning := false }
      else if cellsEqual newHead s1.food then
        let grown := newHead :: s1.snake
        { s1 with
            snake := grown
            score := s1.score + 1
            tickMs :=
              let next := s1.tickMs * (9 / 10 : ℚ)
              if next < MIN_TICK_MS then MIN_TICK_MS else next
            food := generateFood grown us }
      else
        { s1 with snake := newHead :: s1.snake.dropLast }

/-- The four unit vectors the directional keys produce. -/
def arrowDirections : List Direction :=
  [{ x := 0, y := -1 }, { x := 0, y := 1 }, { x := -1, y := 0 }, { x := 1, y := 0 }]

/-- States the client can reach: the initial state, and closure under
ticks, directional keys and the control key. -/
inductive Reachable : GameState → Prop where
  | init (us : RandSrc) : Reachable (initialState us)
  | tick (s : GameState) (us : RandSrc) : Reachable s → Reachable (tick s us)
  | dirKey (s : GameState) (d : Direction) (hd : d ∈ arrowDirections) :
      Reachable s → Reachable (handleDirectionKey s d)
  | controlKey (s : GameState) (us : RandSrc) :
      Reachable s → Reachable (handleControlKey s us)

/-! ## Scoreboard service: data model (server API file, shared types) -/

/-- A host-language number as the score endpoint sees it after the
Number(body.score) coercion: a finite value, NaN, or an infinity. -/
inductive JSNum where
  | num (q : ℚ)
  | nan
  | posInf
  | negInf
deriving DecidableEq, Repr

/-- Number.isFinite. -/
def JSNum.isFinite : JSNum → Bool
  | .num _ => true
  | _ => false

/-- The comparison score < 0 (false on NaN, true only on negative finite
values and negative infinity). -/
def JSNum.isNegative : JSNum → Bool
  | .num q => decide (q < 0)
  | .negInf => true
  | _ => false

/-- The finite value of a validated score (the validated branch only ever
reaches this on the num constructor). -/
def JSNum.numOr0 : JSNum → ℚ
  | .num q => q
  | _ => 0

/-- SnakeComment wire shape from the shared types. -/
structure SnakeComment where
  id : String
  username : String
  score : ℚ
  message : String
  createdAt : String
deriving DecidableEq, Repr

/-- The stored comment-log slot: absent, present but not parsing to an
array (JSON.parse throws or yields a non-array), or a stored array. -/
inductive StoredComments where
  | absent
  | malformed
  | valid (items : List SnakeComment)
deriving DecidableEq

/-- How both handlers read the slot: absent and malformed degrade to the
empty list, logged and discarded. -/
def StoredComments.read : StoredComments → List SnakeComment
  | .absent => []
  | .malformed => []
  | .valid items => items

/-- The per-post slots of the key-value store: the high-score slot (absent
until first written; holding the numeric value whose decimal string is
stored) and the comment-log slot. -/
structure Store where
  highScore : Option ℚ
  comments : StoredComments
deriving DecidableEq

/-- A store access performed by a handler, in order. -/
inductive StoreOp where
  | readScore
  | readComments
  | writeScore
  | writeComments
deriving DecidableEq, Repr

/-- The error wire shape. -/
structure ErrorResponse where
  status : String
  message : String
deriving DecidableEq, Repr

/-- A handler outcome: a typed success body or an error body, each with
its HTTP status code. -/
inductive HandlerResult (α : Type) where
  | ok (body : α) (code : Nat)
  | err (body : ErrorResponse) (code : Nat)
deriving DecidableEq

/-- The HTTP status code of a handler outcome. -/
def HandlerResult.httpCode : HandlerResult α → Nat
  | .ok _ code => code
  | .err _ code => code

/-- SnakeInitResponse wire shape (the constant type tag included). -/
structure SnakeInitResponse where
  type : String
  postId : String
  username : String
  highScore : ℚ
  comments : List SnakeComment
deriving DecidableEq

/-- SnakeScoreResponse wire shape. -/
structure SnakeScoreResponse where
  type : String
  postId : String
  highScore : ℚ
  newBest : Bool
  comment : Option SnakeComment
deriving DecidableEq

/-- The request body of the submit endpoint; message is none when the
field is missing or not a string (the handler treats both as the empty
message). -/
structure SnakeScoreRequest where
  score : JSNum
  message : Option String
deriving DecidableEq

/-- The per-request ambient inputs of the submit handler: the resolved
username, and the Date.now/Math.random token and ISO timestamp used to
build a comment. -/
structure SubmitEnv where
  username : Option String
  id : String
  createdAt : String

/-- The trim() of the host string library: strip leading and trailing
whitespace, modelled over the character list. -/
def strTrim (s : String) : String :=
  String.mk (((s.data.dropWhile Char.isWhitespace).reverse.dropWhile
    Char.isWhitespace).reverse)

/-- slice(0, n): the first n characters. -/
def strTake (s : String) (n : Nat) : String :=
  String.mk (s.data.take n)

/-- The message built by the catch block of the submit handler: the thrown
error's message when it is an Error, a generic fallback otherwise. -/
def catchMessage : Option String → String
  | some m => "Saving score failed: " ++ m
  | none => "Unknown error while saving score"

/-- GET /snake/init: missing postId is a client error; otherwise read the
two slots and the username and answer read-only, with absent score read as
0 and an absent or malformed comment log read as empty. -/
def getSnakeInit (postId : Option String) (store : Store) (username : Option String) :
    HandlerResult SnakeInitResponse × List StoreOp :=
  match postId with
  | none =>
    (.err { status := "error", message := "postId is required but missing from context" } 400, [])
  | some pid =>
    (.ok { type := "snake-init"
           postId := pid
           username := username.getD "anonymous"
           highScore := store.highScore.getD 0
           comments := store.comments.read } 200,
     [StoreOp.readScore, StoreOp.readComments])

/-- POST /snake/score.  Missing postId and an unparseable body (body =
none) are client errors before any validation; a non-finite or negative
score is a client error before any store access.  storeFailure models the
try block throwing at the persistence layer: some e yields the catch-block
response (e is the thrown Error's message, or none when the thrown value
is not an Error).  Otherwise: read both slots, persist the score only when
it beats the stored one, and when the trimmed message is non-empty append
the new comment and evict from the front down to 20 before persisting the
log.  Returns the outcome, the resulting store and the trace of store
accesses. -/
def postSnakeScore (postId : Option String) (body : Option SnakeScoreRequest)
    (store : Store) (env : SubmitEnv) (storeFailure : Option (Option String)) :
    HandlerResult SnakeScoreResponse × Store × List StoreOp :=
  match postId with
  | none => (.err { status := "error", message := "postId is required" } 400, store, [])
  | some pid =>
    match body with
    | none => (.err { status := "error", message := "Invalid request body" } 400, store, [])
    | some req =>
      if !req.score.isFinite || req.score.isNegative then
        (.err { status := "error", message := "Score must be a non-negative number" } 400,
         store, [])
      else
        match storeFailure with
        | some e => (.err { status := "error", message := catchMessage e } 400, store, [])
        | none =>
          let score := req.score.numOr0
          let currentHigh := store.highScore.getD 0
          let newBest : Bool := decide (score > currentHigh)
          let highScore := if newBest then score else currentHigh
          let store1 := if newBest then { store with highScore := some highScore } else store
          let comments0 := store.comments.read
          let trimmedMessage := strTrim (req.message.getD "")
          if trimmedMessage = "" then
            (.ok { type := "snake-score", postId := pid, highScore := highScore,
                   newBest := newBest, comment := none } 200,
             store1,
             [StoreOp.readScore, StoreOp.readComments] ++
               (if newBest then [StoreOp.writeScore] else []))
          else
            let newComment : SnakeComment :=
              { id := env.id
                username := env.username.getD "anonymous"
                score := score
                message := strTake trimmedMessage 280
                createdAt := env.createdAt }
            let appended := comments0 ++ [newComment]
            let final :=
              if appended.length > 20 then appended.drop (appended.length - 20) else appended
            (.ok { type := "snake-score", postId := pid, highScore := highScore,
                   newBest := newBest, comment := some newComment } 200,
             { store1 with comments := StoredComments.valid final },
             [StoreOp.readScore, StoreOp.readComments] ++
               (if newBest then [StoreOp.writeScore] else []) ++ [StoreOp.writeComments])

/-- The comment a successful submit with a non-empty trimmed message
creates (the same record postSnakeScore builds inline). -/
def createdComment (req : SnakeScoreRequest) (env : SubmitEnv) : SnakeComment :=
  { id := env.id
    username := env.username.getD "anonymous"
    score := req.score.numOr0
    message := strTake (strTrim (req.message.getD "")) 280
    createdAt := env.createdAt }

/-- A submit request that passes validation and carries a non-empty
trimmed message. -/
def ValidMsgSubmit (p : SnakeScoreRequest × SubmitEnv) : Prop :=
  p.1.score.isFinite = true ∧ p.1.score.isNegative = false ∧
    strTrim (p.1.message.getD "") ≠ ""

instance : DecidablePred ValidMsgSubmit := by
  intro p
  unfold ValidMsgSubmit
  infer_instance

/-- Sequential submissions: fold the store through the submit handler. -/
def submitSeq (postId : Option String) (store : Store)
    (reqs : List (SnakeScoreRequest × SubmitEnv)) : Store :=
  reqs.foldl (fun st p => (postSnakeScore postId (some p.1) st p.2 none).2.1) store

/-- The suffix of the last at most 20 entries, as the handler computes it
(slice with the length difference). -/
def takeLast20 (l : List SnakeComment) : List SnakeComment :=
  l.drop (l.length - 20)

/-! ## Concrete inputs used by the witness theorems -/

def cellInBoard (c : Cell) : Prop :=
  0 ≤ c.x ∧ c.x < (BOARD_SIZE : Int) ∧ 0 ≤ c.y ∧ c.y < (BOARD_SIZE : Int)

def usZero : RandSrc := fun _ => (0, 0)

def boundaryState : GameState :=
  { snake := [{ x := 19, y := 0 }]
    direction := { x := 1, y := 0 }
    nextDirection := { x := 1, y := 0 }
    food := { x := 0, y := 5 }
    score := 0
    gameOver := false
    isRunning := true
    tickMs := 800 }

def tailState : GameState :=
  { snake := [{ x := 5, y := 5 }, { x := 4, y := 5 }]
    direction := { x := 0, y := 1 }
    nextDirection := { x := -1, y := 0 }
    food := { x := 0, y := 0 }
    score := 0
    gameOver := false
    isRunning := true
    tickMs := 800 }

def pausedState : GameState :=
  { snake := [{ x := 10, y := 10 }]
    direction := { x := 1, y := 0 }
    nextDirection := { x := 0, y := 1 }
    food := { x := 0, y := 0 }
    score := 0
    gameOver := false
    isRunning := true
    tickMs := 800 }

def foodState : GameState :=
  { snake := [{ x := 10, y := 10 }]
    direction := { x := 1, y := 0 }
    nextDirection := { x := 1, y := 0 }
    food := { x := 11, y := 10 }
    score := 0
    gameOver := false
    isRunning := true
    tickMs := 800 }

def envA : SubmitEnv :=
  { username := some "alice", id := "c-1", createdAt := "2024-01-01T00:00:00.000Z" }

def store15 : Store := { highScore := some 15, comments := StoredComments.absent }

def req10 : SnakeScoreRequest := { score := JSNum.num 10, message := none }

def failStore : Store := { highScore := none, comments := StoredComments.absent }

def req5 : SnakeScoreRequest := { score := JSNum.num 5, message := none }

def msgSubmit : SnakeScoreRequest × SubmitEnv :=
  ({ score := JSNum.num 7, message := some "good run" }, envA)

def reqs21 : List (SnakeScoreRequest × SubmitEnv) := List.replicate 21 msgSubmit

/-! ## Helper lemmas -/

theorem tick_fatal (s : GameState) (us : RandSrc) (hd : Cell) (tl : List Cell)
    (hRun : s.isRunning = true) (hOver : s.gameOver = false)
    (hSnake : s.snake = hd :: tl)
    (hFatal :
      (hd.x + s.nextDirection.x < 0 ∨ hd.y + s.nextDirection.y < 0 ∨
        hd.x + s.nextDirection.x ≥ (BOARD_SIZE : Int) ∨
        hd.y + s.nextDirection.y ≥ (BOARD_SIZE : Int)) ∨
      s.snake.any (fun segment =>
        cellsEqual segment { x := hd.x + s.nextDirection.x, y := hd.y + s.nextDirection.y })
        = true) :
    (tick s us).gameOver = true ∧ (tick s us).isRunning = false ∧
      (tick s us).snake = s.snake := by
  unfold tick
  rw [hRun, hOver]
  simp only [Bool.not_true, Bool.or_false, Bool.false_eq_true, if_false]
  simp only [hSnake]
  by_cases hB : hd.x + s.nextDirection.x < 0 ∨ hd.y + s.nextDirection.y < 0 ∨
      hd.x + s.nextDirection.x ≥ (BOARD_SIZE : Int) ∨ hd.y + s.nextDirection.y ≥ (BOARD_SIZE : Int)
  · simp [hB, hSnake]
  · have hC : (hd :: tl).any (fun segment =>
        cellsEqual segment { x := hd.x + s.nextDirection.x, y := hd.y + s.nextDirection.y })
        = true := by
      rcases hFatal with h | h
      · exact absurd h hB
      · rw [hSnake] at h; exact h
    simp [hB, hC, hSnake]

theorem tick_direction (s : GameState) (us : RandSrc)
    (hRun : s.isRunning = true) (hOver : s.gameOver = false) :
    (tick s us).direction = s.nextDirection := by
  unfold tick
  rw [hRun, hOver]
  simp only [Bool.not_true, Bool.or_false, Bool.false_eq_true, if_false]
  cases hSnake : s.snake with
  | nil => simp [hSnake]
  | cons hd tl =>
    simp only [hSnake]
    split
    · rfl
    · split
      · rfl
      · split
        · rfl
        · rfl

theorem tick_snake_length_le (s : GameState) (us : RandSrc) :
    s.snake.length ≤ (tick s us).snake.length := by
  unfold tick
  split
  · exact le_refl _
  · cases hSnake : s.snake with
    | nil => simp [hSnake]
    | cons hd tl =>
      simp only [hSnake]
      split
      · simp [hSnake]
      · split
        · simp [hSnake]
        · split
          · simp [hSnake]
          · simp [hSnake, List.length_dropLast]

theorem tick_snake_length_pos (s : GameState) (us : RandSrc)
    (h : 1 ≤ s.snake.length) : 1 ≤ (tick s us).snake.length :=
  le_trans h (tick_snake_length_le s us)

theorem handleDirectionKey_snake (s : GameState) (d : Direction) :
    (handleDirectionKey s d).snake = s.snake := by
  unfold handleDirectionKey
  split <;> rfl

theorem handleControlKey_snake_length (s : GameState) (us : RandSrc)
    (h : 1 ≤ s.snake.length) : 1 ≤ (handleControlKey s us).snake.length := by
  unfold handleControlKey
  split
  · simp [resetGame]
  · simpa using h

theorem reachable_snake_length (s : GameState) (h : Reachable s) :
    1 ≤ s.snake.length := by
  induction h with
  | init us => simp [initialState]
  | tick s us _ ih => exact tick_snake_length_pos s us ih
  | dirKey s d hd _ ih => rw [handleDirectionKey_snake]; exact ih
  | controlKey s us _ ih => exact handleControlKey_snake_length s us ih

theorem tick_food_step (s : GameState) (us : RandSrc) (hd : Cell) (tl : List Cell) (nh : Cell)
    (hRun : s.isRunning = true) (hOver : s.gameOver = false) (hSnake : s.snake = hd :: tl)
    (hnh : nh = { x := hd.x + s.nextDirection.x, y := hd.y + s.nextDirection.y })
    (hB : ¬(nh.x < 0 ∨ nh.y < 0 ∨ nh.x ≥ (BOARD_SIZE : Int) ∨ nh.y ≥ (BOARD_SIZE : Int)))
    (hC : s.snake.any (fun segment => cellsEqual segment nh) = false)
    (hF : cellsEqual nh s.food = true) :
    tick s us = { s with
      direction := s.nextDirection
      snake := nh :: s.snake
      score := s.score + 1
      tickMs := if s.tickMs * (9 / 10 : ℚ) < MIN_TICK_MS then MIN_TICK_MS
                else s.tickMs * (9 / 10 : ℚ)
      food := generateFood (nh :: s.snake) us } := by
  unfold tick
  rw [hRun, hOver]
  simp only [Bool.not_true, Bool.or_false, Bool.false_eq_true, if_false]
  rw [hSnake] at hC
  simp [hSnake, ← hnh, hB, hC, hF]
  push_neg at hB
  rw [hnh] at hB
  exact hB

theorem tick_normal_step (s : GameState) (us : RandSrc) (hd : Cell) (tl : List Cell) (nh : Cell)
    (hRun : s.isRunning = true) (hOver : s.gameOver = false) (hSnake : s.snake = hd :: tl)
    (hnh : nh = { x := hd.x + s.nextDirection.x, y := hd.y + s.nextDirection.y })
    (hB : ¬(nh.x < 0 ∨ nh.y < 0 ∨ nh.x ≥ (BOARD_SIZE : Int) ∨ nh.y ≥ (BOARD_SIZE : Int)))
    (hC : s.snake.any (fun segment => cellsEqual segment nh) = false)
    (hF : cellsEqual nh s.food = false) :
    tick s us = { s with
      direction := s.nextDirection
      snake := nh :: s.snake.dropLast } := by
  unfold tick
  rw [hRun, hOver]
  simp only [Bool.not_true, Bool.or_false, Bool.false_eq_true, if_false]
  rw [hSnake] at hC
  simp [hSnake, ← hnh, hB, hC, hF]
  push_neg at hB
  rw [hnh] at hB
  exact hB

theorem randomInt_range (u : ℚ) (max : Nat) (h0 : 0 ≤ u) (h1 : u < 1) (hm : 0 < max) :
    0 ≤ randomInt u max ∧ randomInt u max < (max : Int) := by
  unfold randomInt
  constructor
  · exact Int.floor_nonneg.mpr (mul_nonneg h0 (by positivity))
  · rw [Int.floor_lt]
    push_cast
    have : (1 : ℚ) ≤ (max : ℚ) := by exact_mod_cast hm
    nlinarith

theorem candidateCell_inBoard (us : RandSrc) (k : Nat) (hus : RandSrc.InRange us) :
    cellInBoard (candidateCell us k) := by
  obtain ⟨h1, h2, h3, h4⟩ := hus k
  have hx := randomInt_range (us k).1 BOARD_SIZE h1 h2 (by norm_num [BOARD_SIZE])
  have hy := randomInt_range (us k).2 BOARD_SIZE h3 h4 (by norm_num [BOARD_SIZE])
  exact ⟨hx.1, hx.2, hy.1, hy.2⟩

theorem generateFoodFrom_inBoard (snake : List Cell) (us : RandSrc)
    (hus : RandSrc.InRange us) (fuel i : Nat) :
    cellInBoard (generateFoodFrom snake us i fuel) := by
  induction fuel generalizing i with
  | zero => simp [generateFoodFrom, cellInBoard, BOARD_SIZE]
  | succ fuel ih =>
    unfold generateFoodFrom
    by_cases hOcc : snake.any (fun s => cellsEqual s (candidateCell us i)) = true
    · simp only [hOcc, if_true]
      exact ih (i + 1)
    · simp only [hOcc, if_false]
      exact candidateCell_inBoard us i hus

theorem generateFood_inBoard (snake : List Cell) (us : RandSrc)
    (hus : RandSrc.InRange us) : cellInBoard (generateFood snake us) :=
  generateFoodFrom_inBoard snake us hus 100 0

theorem generateFoodFrom_free_or_default (snake : List Cell) (us : RandSrc)
    (fuel i : Nat) :
    (snake.any (fun s => cellsEqual s (generateFoodFrom snake us i fuel)) = false) ∨
      (generateFoodFrom snake us i fuel = { x := 0, y := 0 } ∧
        ∀ j, j < fuel →
          snake.any (fun s => cellsEqual s (candidateCell us (i + j))) = true) := by
  induction fuel generalizing i with
  | zero =>
    right
    exact ⟨rfl, fun j hj => absurd hj (Nat.not_lt_zero j)⟩
  | succ fuel ih =>
    unfold generateFoodFrom
    by_cases hOcc : snake.any (fun s => cellsEqual s (candidateCell us i)) = true
    · simp only [hOcc, if_true]
      rcases ih (i + 1) with h | ⟨hEq, hAll⟩
      · left; exact h
      · right
        refine ⟨hEq, fun j hj => ?_⟩
        match j with
        | 0 => simpa using hOcc
        | k + 1 =>
          have : i + (k + 1) = (i + 1) + k := by omega
          rw [this]
          exact hAll k (by omega)
    · simp only [hOcc, if_false]
      left
      simpa using hOcc

theorem generateFood_free_or_default (snake : List Cell) (us : RandSrc) :
    (snake.any (fun s => cellsEqual s (generateFood snake us)) = false) ∨
      (generateFood snake us = { x := 0, y := 0 } ∧
        ∀ j, j < 100 →
          snake.any (fun s => cellsEqual s (candidateCell us j)) = true) := by
  have h := generateFoodFrom_free_or_default snake us 100 0
  simpa using h

theorem takeLast20_eq_rtake (l : List SnakeComment) : takeLast20 l = l.rtake 20 := rfl

theorem takeLast20_length_le (l : List SnakeComment) : (takeLast20 l).length ≤ 20 := by
  simp only [takeLast20, List.length_drop]
  omega

theorem takeLast20_of_le (l : List SnakeComment) (h : l.length ≤ 20) : takeLast20 l = l := by
  simp only [takeLast20]
  rw [Nat.sub_eq_zero_of_le h, List.drop_zero]

theorem takeLast20_append_left (a b : List SnakeComment) :
    takeLast20 (takeLast20 a ++ b) = takeLast20 (a ++ b) := by
  simp only [takeLast20_eq_rtake, List.rtake_eq_reverse_take_reverse, List.reverse_append,
    List.reverse_reverse, List.take_append_eq_append_take, List.take_take]
  congr 3
  omega

theorem ite_drop_eq_takeLast20 (l : List SnakeComment) :
    (if l.length > 20 then l.drop (l.length - 20) else l) = takeLast20 l := by
  split
  · rfl
  · rw [takeLast20_of_le l (by omega)]

theorem postSnakeScore_valid_eq (pid : String) (req : SnakeScoreRequest) (store : Store)
    (env : SubmitEnv) (q : ℚ) (hq : req.score = JSNum.num q) (hq0 : 0 ≤ q) :
    postSnakeScore (some pid) (some req) store env none =
      (let currentHigh := store.highScore.getD 0
       let newBest : Bool := decide (q > currentHigh)
       let highScore := if newBest then q else currentHigh
       let store1 := if newBest then { store with highScore := some highScore } else store
       let trimmedMessage := strTrim (req.message.getD "")
       if trimmedMessage = "" then
         (HandlerResult.ok { type := "snake-score", postId := pid,
                             highScore := highScore,
                             newBest := newBest, comment := none } 200, store1,
          [StoreOp.readScore, StoreOp.readComments] ++
            (if newBest then [StoreOp.writeScore] else []))
       else
         let newComment := createdComment req env
         let appended := store.comments.read ++ [newComment]
         let final := if appended.length > 20 then appended.drop (appended.length - 20)
                      else appended
         (HandlerResult.ok { type := "snake-score", postId := pid,
                             highScore := highScore,
                             newBest := newBest, comment := some newComment } 200,
          { store1 with comments := StoredComments.valid final },
          [StoreOp.readScore, StoreOp.readComments] ++
            (if newBest then [StoreOp.writeScore] else []) ++ [StoreOp.writeComments])) := by
  obtain ⟨sc, msg⟩ := req
  simp only at hq
  subst hq
  simp only [postSnakeScore, JSNum.isFinite, JSNum.isNegative, JSNum.numOr0,
    decide_eq_false (not_lt.mpr hq0), Bool.not_true, Bool.or_false, Bool.false_eq_true,
    if_false, createdComment]

/-- C2: a tick taken while Running whose new head (current head plus the
committed direction) lies outside the board on either axis or equals any
existing snake cell transitions the session to GameOver with the running
flag cleared and the snake sequence exactly as before the tick. -/
theorem C2_fatal_tick (s : GameState) (us : RandSrc) (hd : Cell) (tl : List Cell)
    (hRun : s.isRunning = true) (hOver : s.gameOver = false)
    (hSnake : s.snake = hd :: tl)
    (hFatal :
      (hd.x + s.nextDirection.x < 0 ∨ hd.y + s.nextDirection.y < 0 ∨
        hd.x + s.nextDirection.x ≥ (BOARD_SIZE : Int) ∨
        hd.y + s.nextDirection.y ≥ (BOARD_SIZE : Int)) ∨
      s.snake.any (fun segment =>
        cellsEqual segment { x := hd.x + s.nextDirection.x, y := hd.y + s.nextDirection.y })
        = true) :
    (tick s us).gameOver = true ∧ (tick s us).isRunning = false ∧
      (tick s us).snake = s.snake :=
  tick_fatal s us hd tl hRun hOver hSnake hFatal

/-- C2 witness: head (19,0) moving right exits the board. -/
theorem C2_witness :
    (tick boundaryState usZero).gameOver = true ∧
    (tick boundaryState usZero).isRunning = false ∧
    (tick boundaryState usZero).snake = boundaryState.snake :=
  C2_fatal_tick boundaryState usZero { x := 19, y := 0 } [] rfl rfl rfl (by decide)

/-- C10: with at least two segments, a tick whose new head equals the
cell currently occupied by the tail (last element), that cell not being
the food, ends in GameOver with the snake unchanged: the tail cell is not
treated as vacated by the simultaneous tail move. -/
theorem C10_tail_not_vacated (s : GameState) (us : RandSrc) (hd : Cell) (tl : List Cell)
    (hRun : s.isRunning = true) (hOver : s.gameOver = false)
    (hSnake : s.snake = hd :: tl) (_hLen : 2 ≤ s.snake.length)
    (hTail : s.snake.getLast? =
      some { x := hd.x + s.nextDirection.x, y := hd.y + s.nextDirection.y })
    (_hNotFood : cellsEqual
      { x := hd.x + s.nextDirection.x, y := hd.y + s.nextDirection.y } s.food = false) :
    (tick s us).gameOver = true ∧ (tick s us).isRunning = false ∧
      (tick s us).snake = s.snake := by
  apply tick_fatal s us hd tl hRun hOver hSnake
  right
  rw [List.any_eq_true]
  refine ⟨{ x := hd.x + s.nextDirection.x, y := hd.y + s.nextDirection.y }, ?_, ?_⟩
  · have hmem : ({ x := hd.x + s.nextDirection.x, y := hd.y + s.nextDirection.y } : Cell)
        ∈ s.snake.getLast? := Option.mem_def.mpr hTail
    obtain ⟨hne, heq⟩ := List.mem_getLast?_eq_getLast hmem
    exact heq ▸ List.getLast_mem hne
  · simp [cellsEqual]

/-- C10 witness: snake [(5,5),(4,5)] with buffered direction (-1,0): the
new head is the tail cell (4,5) and the game ends. -/
theorem C10_witness :
    (tick tailState usZero).gameOver = true ∧ (tick tailState usZero).isRunning = false ∧
      (tick tailState usZero).snake = tailState.snake :=
  C10_tail_not_vacated tailState usZero { x := 5, y := 5 } [{ x := 4, y := 5 }]
    rfl rfl rfl (by decide) (by decide) (by decide)

/-- C5: a directional input that is the exact component-wise negation of
the current committed direction leaves the buffered slot unchanged; any
other directional input overwrites it (last write wins).  In particular
with committed direction (1,0) an input of (-1,0) leaves the buffered
direction, and hence the direction committed by the next tick,
unchanged. -/
theorem C5_direction_input (s : GameState) (us : RandSrc) (d : Direction) :
    (d.x = -s.direction.x ∧ d.y = -s.direction.y → handleDirectionKey s d = s) ∧
    (¬(d.x = -s.direction.x ∧ d.y = -s.direction.y) →
      handleDirectionKey s d = { s with nextDirection := d }) ∧
    (s.direction = { x := 1, y := 0 } →
      (handleDirectionKey s { x := -1, y := 0 }).nextDirection = s.nextDirection ∧
      (s.isRunning = true → s.gameOver = false →
        (tick (handleDirectionKey s { x := -1, y := 0 }) us).direction = s.nextDirection)) := by
  refine ⟨?_, ?_, ?_⟩
  · intro h
    simp [handleDirectionKey, h]
  · intro h
    simp only [handleDirectionKey, if_neg h]
  · intro h
    have hrej : handleDirectionKey s { x := -1, y := 0 } = s := by
      simp [handleDirectionKey, h]
    rw [hrej]
    exact ⟨rfl, fun hRun hOver => tick_direction s us hRun hOver⟩

/-- C5 witness: with committed direction (1,0) and buffered (0,1), the
input (-1,0) is rejected and (0,-1) overwrites the buffer. -/
theorem C5_witness :
    handleDirectionKey pausedState { x := -1, y := 0 } = pausedState ∧
    handleDirectionKey pausedState { x := 0, y := -1 } =
      { pausedState with nextDirection := { x := 0, y := -1 } } ∧
    (handleDirectionKey pausedState { x := -1, y := 0 }).nextDirection =
      pausedState.nextDirection :=
  ⟨(C5_direction_input pausedState usZero { x := -1, y := 0 }).1 (by decide),
   (C5_direction_input pausedState usZero { x := 0, y := -1 }).2.1 (by decide),
   ((C5_direction_input pausedState usZero { x := -1, y := 0 }).2.2 rfl).1⟩

/-- C3: snake length is at least 1 in every reachable state; a tick taken
while Running that does not end in GameOver grows the length by exactly 1
when the new head is the food cell and preserves it otherwise; a tick
taken while Running never decreases the length. -/
theorem C3_snake_length :
    (∀ s : GameState, Reachable s → 1 ≤ s.snake.length) ∧
    (∀ (s : GameState) (us : RandSrc) (hd : Cell) (tl : List Cell),
      s.isRunning = true → s.gameOver = false → s.snake = hd :: tl →
      (tick s us).gameOver = false →
      (tick s us).snake.length =
        (if cellsEqual { x := hd.x + s.nextDirection.x, y := hd.y + s.nextDirection.y } s.food
          then s.snake.length + 1 else s.snake.length)) ∧
    (∀ (s : GameState) (us : RandSrc), s.isRunning = true →
      s.snake.length ≤ (tick s us).snake.length) := by
  refine ⟨fun s h => reachable_snake_length s h, ?_, fun s us _ => tick_snake_length_le s us⟩
  intro s us hd tl hRun hOver hSnake hAlive
  by_cases hB : hd.x + s.nextDirection.x < 0 ∨ hd.y + s.nextDirection.y < 0 ∨
      hd.x + s.nextDirection.x ≥ (BOARD_SIZE : Int) ∨
      hd.y + s.nextDirection.y ≥ (BOARD_SIZE : Int)
  · have := (tick_fatal s us hd tl hRun hOver hSnake (Or.inl hB)).1
    rw [this] at hAlive
    cases hAlive
  · by_cases hC : s.snake.any (fun segment =>
        cellsEqual segment { x := hd.x + s.nextDirection.x, y := hd.y + s.nextDirection.y })
        = true
    · have := (tick_fatal s us hd tl hRun hOver hSnake (Or.inr hC)).1
      rw [this] at hAlive
      cases hAlive
    · have hC' : s.snake.any (fun segment =>
          cellsEqual segment { x := hd.x + s.nextDirection.x, y := hd.y + s.nextDirection.y })
          = false := by
        simpa using hC
      by_cases hF : cellsEqual
          { x := hd.x + s.nextDirection.x, y := hd.y + s.nextDirection.y } s.food = true
      · rw [tick_food_step s us hd tl _ hRun hOver hSnake rfl hB hC' hF, hF]
        simp
      · have hF' : cellsEqual
            { x := hd.x + s.nextDirection.x, y := hd.y + s.nextDirection.y } s.food = false := by
          simpa using hF
        rw [tick_normal_step s us hd tl _ hRun hOver hSnake rfl hB hC' hF', hF']
        simp [hSnake]

/-- C3 witness: the initial state is reachable with length 1; a concrete
food-eating tick grows the length by 1 and never shrinks it. -/
theorem C3_witness :
    (1 ≤ (initialState usZero).snake.length) ∧
    ((tick foodState usZero).snake.length =
      (if cellsEqual { x := (10 : Int) + 1, y := (10 : Int) + 0 } foodState.food
        then foodState.snake.length + 1 else foodState.snake.length)) ∧
    foodState.snake.length ≤ (tick foodState usZero).snake.length :=
  ⟨C3_snake_length.1 (initialState usZero) (Reachable.init usZero),
   C3_snake_length.2.1 foodState usZero { x := 10, y := 10 } [] rfl rfl rfl (by decide),
   C3_snake_length.2.2 foodState usZero rfl⟩

/-- C6: a tick taken while Running whose new head equals the food cell
prepends the head with the tail retained (length + 1), increments the
score by exactly 1, multiplies the tick interval by 0.9 floored at
MIN_TICK_MS, and regenerates the food: the new food is disjoint from the
grown snake unless all 100 rejection-sampling attempts hit the snake, in
which case it is the fixed default cell (0,0); and it always lies inside
the board. -/
theorem C6_food_pickup (s : GameState) (us : RandSrc) (hd : Cell) (tl : List Cell) (nh : Cell)
    (hRun : s.isRunning = true) (hOver : s.gameOver = false)
    (hSnake : s.snake = hd :: tl)
    (hnh : nh = { x := hd.x + s.nextDirection.x, y := hd.y + s.nextDirection.y })
    (hB : ¬(nh.x < 0 ∨ nh.y < 0 ∨ nh.x ≥ (BOARD_SIZE : Int) ∨ nh.y ≥ (BOARD_SIZE : Int)))
    (hC : s.snake.any (fun segment => cellsEqual segment nh) = false)
    (hF : cellsEqual nh s.food = true)
    (hus : RandSrc.InRange us) :
    (tick s us).snake = nh :: s.snake ∧
    (tick s us).snake.length = s.snake.length + 1 ∧
    (tick s us).score = s.score + 1 ∧
    (tick s us).tickMs =
      (if s.tickMs * (9 / 10 : ℚ) < MIN_TICK_MS then MIN_TICK_MS
        else s.tickMs * (9 / 10 : ℚ)) ∧
    (((nh :: s.snake).any (fun c => cellsEqual c (tick s us).food) = false) ∨
      ((tick s us).food = { x := 0, y := 0 } ∧
        ∀ j, j < 100 → (nh :: s.snake).any
          (fun c => cellsEqual c (candidateCell us j)) = true)) ∧
    cellInBoard (tick s us).food := by
  rw [tick_food_step s us hd tl nh hRun hOver hSnake hnh hB hC hF]
  refine ⟨rfl, by simp, rfl, rfl, ?_, ?_⟩
  · exact generateFood_free_or_default (nh :: s.snake) us
  · exact generateFood_inBoard (nh :: s.snake) us hus

/-- C6 witness: a concrete food pickup at (11,10). -/
theorem C6_witness :
    (tick foodState usZero).snake = { x := 11, y := 10 } :: foodState.snake ∧
    (tick foodState usZero).snake.length = foodState.snake.length + 1 ∧
    (tick foodState usZero).score = foodState.score + 1 ∧
    (tick foodState usZero).tickMs =
      (if foodState.tickMs * (9 / 10 : ℚ) < MIN_TICK_MS then MIN_TICK_MS
        else foodState.tickMs * (9 / 10 : ℚ)) ∧
    ((({ x := 11, y := 10 } :: foodState.snake).any
        (fun c => cellsEqual c (tick foodState usZero).food) = false) ∨
      ((tick foodState usZero).food = { x := 0, y := 0 } ∧
        ∀ j, j < 100 → (({ x := 11, y := 10 } : Cell) :: foodState.snake).any
          (fun c => cellsEqual c (candidateCell usZero j)) = true)) ∧
    cellInBoard (tick foodState usZero).food :=
  C6_food_pickup foodState usZero { x := 10, y := 10 } [] { x := 11, y := 10 }
    rfl rfl rfl (by decide) (by decide) (by decide) (by decide)
    (fun k => ⟨le_refl 0, by norm_num [usZero], le_refl 0, by norm_num [usZero]⟩)

theorem JSNum.valid_num {n : JSNum} (hfin : n.isFinite = true) (hneg : n.isNegative = false) :
    ∃ q : ℚ, n = JSNum.num q ∧ 0 ≤ q := by
  cases n with
  | num q =>
    refine ⟨q, rfl, ?_⟩
    simpa [JSNum.isNegative, not_lt] using hneg
  | nan => simp [JSNum.isFinite] at hfin
  | posInf => simp [JSNum.isFinite] at hfin
  | negInf => simp [JSNum.isFinite] at hfin

theorem postSnakeScore_high_mono (pid : String) (req : SnakeScoreRequest) (store : Store)
    (env : SubmitEnv) :
    store.highScore.getD 0 ≤
      (postSnakeScore (some pid) (some req) store env none).2.1.highScore.getD 0 := by
  by_cases hv : (!req.score.isFinite || req.score.isNegative) = true
  · unfold postSnakeScore
    simp [hv]
  · have hfin : req.score.isFinite = true := by
      cases h : req.score.isFinite
      · simp [h] at hv
      · rfl
    have hneg : req.score.isNegative = false := by
      cases h : req.score.isNegative
      · rfl
      · simp [h, hfin] at hv
    obtain ⟨q, hq, hq0⟩ := JSNum.valid_num hfin hneg
    rw [postSnakeScore_valid_eq pid req store env q hq hq0]
    by_cases hBest : q > store.highScore.getD 0 <;>
      by_cases hMsg : strTrim (req.message.getD "") = "" <;>
        simp [hBest, hMsg, le_of_lt]

theorem submitSeq_high_mono (pid : String) (reqs : List (SnakeScoreRequest × SubmitEnv)) :
    ∀ store : Store,
      store.highScore.getD 0 ≤ (submitSeq (some pid) store reqs).highScore.getD 0 := by
  induction reqs with
  | nil =>
    intro store
    exact le_refl _
  | cons p rest ih =>
    intro store
    have hseq : submitSeq (some pid) store (p :: rest) =
        submitSeq (some pid) (postSnakeScore (some pid) (some p.1) store p.2 none).2.1 rest := by
      simp [submitSeq]
    rw [hseq]
    exact le_trans (postSnakeScore_high_mono pid p.1 store p.2)
      (ih (postSnakeScore (some pid) (some p.1) store p.2 none).2.1)

/-- C1: a submit with a valid score q against stored high h (0 if absent)
answers newBest = (q > h) and highScore = max of the two; the stored high
score after the operation reads back as that same returned value; when
q ≤ h the high-score slot is not written and the slot is unchanged; the
stored high score never decreases across a submission. -/
theorem C1_submit_reconciliation (pid : String) (req : SnakeScoreRequest) (store : Store)
    (env : SubmitEnv) (q : ℚ) (hq : req.score = JSNum.num q) (hq0 : 0 ≤ q) :
    (∃ body : SnakeScoreResponse, ∃ code : Nat,
      (postSnakeScore (some pid) (some req) store env none).1 = HandlerResult.ok body code ∧
      body.newBest = decide (q > store.highScore.getD 0) ∧
      body.highScore =
        (if q > store.highScore.getD 0 then q else store.highScore.getD 0)) ∧
    (postSnakeScore (some pid) (some req) store env none).2.1.highScore.getD 0 =
      (if q > store.highScore.getD 0 then q else store.highScore.getD 0) ∧
    (q ≤ store.highScore.getD 0 →
      StoreOp.writeScore ∉ (postSnakeScore (some pid) (some req) store env none).2.2 ∧
      (postSnakeScore (some pid) (some req) store env none).2.1.highScore = store.highScore) ∧
    store.highScore.getD 0 ≤
      (postSnakeScore (some pid) (some req) store env none).2.1.highScore.getD 0 ∧
    (∀ reqs : List (SnakeScoreRequest × SubmitEnv),
      store.highScore.getD 0 ≤ (submitSeq (some pid) store reqs).highScore.getD 0) := by
  refine ?_
  have hmono := fun reqs => submitSeq_high_mono pid reqs store
  rw [postSnakeScore_valid_eq pid req store env q hq hq0]
  by_cases hBest : q > store.highScore.getD 0 <;>
    by_cases hMsg : strTrim (req.message.getD "") = "" <;>
      simp [hBest, hMsg, le_of_lt, not_lt.mp, hmono]

/-- C1 witness: submitting 10 against a stored high score of 15. -/
theorem C1_witness :
    (∃ body : SnakeScoreResponse, ∃ code : Nat,
      (postSnakeScore (some "p1") (some req10) store15 envA none).1 =
        HandlerResult.ok body code ∧
      body.newBest = decide ((10 : ℚ) > store15.highScore.getD 0) ∧
      body.highScore =
        (if (10 : ℚ) > store15.highScore.getD 0 then (10 : ℚ)
          else store15.highScore.getD 0)) ∧
    (postSnakeScore (some "p1") (some req10) store15 envA none).2.1.highScore.getD 0 =
      (if (10 : ℚ) > store15.highScore.getD 0 then (10 : ℚ) else store15.highScore.getD 0) ∧
    ((10 : ℚ) ≤ store15.highScore.getD 0 →
      StoreOp.writeScore ∉ (postSnakeScore (some "p1") (some req10) store15 envA none).2.2 ∧
      (postSnakeScore (some "p1") (some req10) store15 envA none).2.1.highScore =
        store15.highScore) ∧
    store15.highScore.getD 0 ≤
      (postSnakeScore (some "p1") (some req10) store15 envA none).2.1.highScore.getD 0 ∧
    (∀ reqs : List (SnakeScoreRequest × SubmitEnv),
      store15.highScore.getD 0 ≤ (submitSeq (some "p1") store15 reqs).highScore.getD 0) :=
  C1_submit_reconciliation "p1" req10 store15 envA 10 rfl (by norm_num)

/-- C7: a submit whose score is non-finite or negative is answered with
the structured client error (HTTP 400) and performs no store access at
all: the trace is empty and the store unchanged, whatever the persistence
layer would have done. -/
theorem C7_invalid_score_rejected (pid : String) (req : SnakeScoreRequest) (store : Store)
    (env : SubmitEnv) (fail : Option (Option String))
    (hbad : req.score.isFinite = false ∨ req.score.isNegative = true) :
    postSnakeScore (some pid) (some req) store env fail =
      (HandlerResult.err
        { status := "error", message := "Score must be a non-negative number" } 400,
       store, []) := by
  unfold postSnakeScore
  have hguard : (!req.score.isFinite || req.score.isNegative) = true := by
    rcases hbad with h | h <;> simp [h]
  simp [hguard]

/-- C7 witness: NaN and -3 are both rejected with no store access. -/
theorem C7_witness :
    postSnakeScore (some "p1") (some { score := JSNum.nan, message := none })
        store15 envA none =
      (HandlerResult.err
        { status := "error", message := "Score must be a non-negative number" } 400,
       store15, []) ∧
    postSnakeScore (some "p1") (some { score := JSNum.num (-3), message := some "hi" })
        store15 envA none =
      (HandlerResult.err
        { status := "error", message := "Score must be a non-negative number" } 400,
       store15, []) :=
  ⟨C7_invalid_score_rejected "p1" _ store15 envA none (Or.inl rfl),
   C7_invalid_score_rejected "p1" _ store15 envA none (Or.inr (by decide))⟩

/-- C8: init never fails on stored data: it answers ok with highScore
read as 0 when the slot is absent and with an empty comment list when the
comment slot is absent or malformed, and its store trace contains no
write. -/
theorem C8_init_read (pid : String) (store : Store) (username : Option String) :
    (∃ body : SnakeInitResponse, ∃ code : Nat,
      (getSnakeInit (some pid) store username).1 = HandlerResult.ok body code ∧
      body.highScore = store.highScore.getD 0 ∧
      body.comments = store.comments.read ∧
      (store.highScore = none → body.highScore = 0) ∧
      (store.comments = StoredComments.absent ∨ store.comments = StoredComments.malformed →
        body.comments = [])) ∧
    StoreOp.writeScore ∉ (getSnakeInit (some pid) store username).2 ∧
    StoreOp.writeComments ∉ (getSnakeInit (some pid) store username).2 := by
  refine ⟨⟨_, 200, rfl, rfl, rfl, ?_, ?_⟩, by simp [getSnakeInit], by simp [getSnakeInit]⟩
  · intro h
    simp [getSnakeInit, h]
  · intro h
    rcases h with h | h <;> simp [getSnakeInit, h, StoredComments.read]

/-- C8 witness: a store with absent high score and a malformed comment
payload. -/
theorem C8_witness :
    (∃ body : SnakeInitResponse, ∃ code : Nat,
      (getSnakeInit (some "p1")
          { highScore := none, comments := StoredComments.malformed } (some "alice")).1 =
        HandlerResult.ok body code ∧
      body.highScore =
        ({ highScore := none, comments := StoredComments.malformed } : Store).highScore.getD 0 ∧
      body.comments =
        ({ highScore := none, comments := StoredComments.malformed } : Store).comments.read ∧
      (({ highScore := none, comments := StoredComments.malformed } : Store).highScore = none →
        body.highScore = 0) ∧
      (({ highScore := none, comments := StoredComments.malformed } : Store).comments =
          StoredComments.absent ∨
        ({ highScore := none, comments := StoredComments.malformed } : Store).comments =
          StoredComments.malformed →
        body.comments = [])) ∧
    StoreOp.writeScore ∉ (getSnakeInit (some "p1")
      { highScore := none, comments := StoredComments.malformed } (some "alice")).2 ∧
    StoreOp.writeComments ∉ (getSnakeInit (some "p1")
      { highScore := none, comments := StoredComments.malformed } (some "alice")).2 :=
  C8_init_read "p1" { highScore := none, comments := StoredComments.malformed } (some "alice")

/-- C9 counterexample: at a concrete valid submit during which the
persistence layer throws, the response carries HTTP status 400 — not a
5xx server-error status — which is the very status code the validation
client error uses, and its message embeds the thrown error's text rather
than being generic: the failure is not surfaced as a server error
distinct from the client-error class. -/
theorem C9_counterexample :
    (postSnakeScore (some "p1") (some req5) failStore envA
        (some (some "redis unavailable"))).1.httpCode = 400 ∧
    ¬ 500 ≤ (postSnakeScore (some "p1") (some req5) failStore envA
        (some (some "redis unavailable"))).1.httpCode ∧
    (postSnakeScore (some "p1")
        (some { score := JSNum.nan, message := none }) failStore envA none).1.httpCode = 400 ∧
    (postSnakeScore (some "p1") (some req5) failStore envA
        (some (some "redis unavailable"))).1 =
      HandlerResult.err
        { status := "error", message := "Saving score failed: redis unavailable" } 400 := by
  refine ⟨rfl, by decide, rfl, rfl⟩

/-- C9 (amended): a submit that passes validation and during which the
persistence layer throws is never silently swallowed: it is surfaced to
the caller as a structured error response whose message is the thrown
Error's message prefixed, or a generic fallback otherwise — but with HTTP
status 400, the same status code the client validation errors use, not a
distinct server-error status. -/
theorem C9_persistence_failure_surfaced (pid : String) (req : SnakeScoreRequest)
    (store : Store) (env : SubmitEnv) (e : Option String)
    (hfin : req.score.isFinite = true) (hneg : req.score.isNegative = false) :
    postSnakeScore (some pid) (some req) store env (some e) =
      (HandlerResult.err { status := "error", message := catchMessage e } 400, store, []) := by
  unfold postSnakeScore
  simp [hfin, hneg]

/-- C9 witness: the concrete store failure is surfaced. -/
theorem C9_witness :
    postSnakeScore (some "p1") (some req5) failStore envA (some (some "redis unavailable")) =
      (HandlerResult.err
        { status := "error", message := catchMessage (some "redis unavailable") } 400,
       failStore, []) :=
  C9_persistence_failure_surfaced "p1" req5 failStore envA (some "redis unavailable") rfl rfl

theorem postSnakeScore_comments_step (pid : String) (req : SnakeScoreRequest) (store : Store)
    (env : SubmitEnv) (q : ℚ) (hq : req.score = JSNum.num q) (hq0 : 0 ≤ q)
    (hMsg : strTrim (req.message.getD "") ≠ "") :
    (postSnakeScore (some pid) (some req) store env none).2.1.comments =
      StoredComments.valid
        (takeLast20 (store.comments.read ++ [createdComment req env])) := by
  rw [postSnakeScore_valid_eq pid req store env q hq hq0]
  by_cases hBest : q > store.highScore.getD 0 <;>
    simp [hBest, hMsg, ite_drop_eq_takeLast20] <;>
    · simp only [takeLast20, List.length_append, List.length_cons, List.length_nil]
      split
      · congr 1
      · rw [Nat.sub_eq_zero_of_le (by omega), List.drop_zero]

theorem submitSeq_comments_read (pid : String)
    (reqs : List (SnakeScoreRequest × SubmitEnv)) :
    ∀ store : Store, (∀ p ∈ reqs, ValidMsgSubmit p) → store.comments.read.length ≤ 20 →
      (submitSeq (some pid) store reqs).comments.read =
        takeLast20 (store.comments.read ++ reqs.map fun p => createdComment p.1 p.2) := by
  induction reqs with
  | nil =>
    intro store _ hlen
    rw [List.map_nil, List.append_nil, takeLast20_of_le _ hlen]
    rfl
  | cons p rest ih =>
    intro store hvalid hlen
    obtain ⟨hfin, hneg, hmsg⟩ := hvalid p (List.mem_cons_self p rest)
    obtain ⟨q, hq, hq0⟩ := JSNum.valid_num hfin hneg
    have hstep := postSnakeScore_comments_step pid p.1 store p.2 q hq hq0 hmsg
    have hseq : submitSeq (some pid) store (p :: rest) =
        submitSeq (some pid) (postSnakeScore (some pid) (some p.1) store p.2 none).2.1 rest := by
      simp [submitSeq]
    rw [hseq, ih _ (fun r hr => hvalid r (List.mem_cons_of_mem p hr)) ?lenbound]
    case lenbound =>
      rw [hstep]
      exact takeLast20_length_le _
    rw [hstep]
    show takeLast20 (takeLast20 (store.comments.read ++ [createdComment p.1 p.2]) ++ _) = _
    rw [takeLast20_append_left, List.append_assoc, List.singleton_append, List.map_cons]

/-- C4: a submit with a non-empty trimmed message stores the previous log
(empty when absent or malformed) with the new comment appended and then
evicted from the front down to at most 20, order preserved; hence 21
sequential such submissions starting from an empty log leave exactly the
20 most recent comments in original order. -/
theorem C4_comment_log :
    (∀ (pid : String) (req : SnakeScoreRequest) (store : Store) (env : SubmitEnv) (q : ℚ),
      req.score = JSNum.num q → 0 ≤ q → strTrim (req.message.getD "") ≠ "" →
      (postSnakeScore (some pid) (some req) store env none).2.1.comments =
        StoredComments.valid
          (takeLast20 (store.comments.read ++ [createdComment req env])) ∧
      (takeLast20 (store.comments.read ++ [createdComment req env])).length ≤ 20) ∧
    (∀ (pid : String) (reqs : List (SnakeScoreRequest × SubmitEnv)) (store : Store),
      reqs.length = 21 → (∀ p ∈ reqs, ValidMsgSubmit p) → store.comments.read = [] →
      (submitSeq (some pid) store reqs).comments.read =
        (reqs.map fun p => createdComment p.1 p.2).drop 1 ∧
      (submitSeq (some pid) store reqs).comments.read.length = 20) := by
  constructor
  · intro pid req store env q hq hq0 hMsg
    exact ⟨postSnakeScore_comments_step pid req store env q hq hq0 hMsg,
      takeLast20_length_le _⟩
  · intro pid reqs store hlen hvalid hempty
    have hmaplen : (reqs.map fun p => createdComment p.1 p.2).length = 21 := by
      rw [List.length_map, hlen]
    have hread := submitSeq_comments_read pid reqs store hvalid (by rw [hempty]; simp)
    rw [hempty, List.nil_append] at hread
    constructor
    · rw [hread, takeLast20, hmaplen]
    · rw [hread, takeLast20, List.length_drop, hmaplen]

/-- C4 witness: a concrete submit with a message, and 21 identical
submissions against an empty log. -/
theorem C4_witness :
    ((postSnakeScore (some "p1") (some msgSubmit.1) failStore msgSubmit.2 none).2.1.comments =
      StoredComments.valid
        (takeLast20 (failStore.comments.read ++ [createdComment msgSubmit.1 msgSubmit.2])) ∧
      (takeLast20 (failStore.comments.read ++
        [createdComment msgSubmit.1 msgSubmit.2])).length ≤ 20) ∧
    (submitSeq (some "p1") failStore reqs21).comments.read =
      (reqs21.map fun p => createdComment p.1 p.2).drop 1 ∧
    (submitSeq (some "p1") failStore reqs21).comments.read.length = 20 := by
  have hvalid : ∀ p ∈ reqs21, ValidMsgSubmit p := by
    intro p hp
    have hp' : p = msgSubmit := List.eq_of_mem_replicate hp
    subst hp'
    exact ⟨rfl, rfl, by decide⟩
  refine ⟨C4_comment_log.1 "p1" msgSubmit.1 failStore msgSubmit.2 7 rfl (by norm_num)
      (by decide),
    (C4_comment_log.2 "p1" reqs21 failStore (by simp [reqs21]) hvalid rfl).1,
    (C4_comment_log.2 "p1" reqs21 failStore (by simp [reqs21]) hvalid rfl).2⟩
